import Mathlib

/-!
Verification of the metrics subsystem of the lambda_python_powertools package.

The development shallowly embeds the Python sources:
- helper/models.py : the MetricUnit enum (member names and canonical values),
- metrics/base.py : MetricManager (add_namespace, add_metric, add_dimension,
  serialize_metric_set) together with the CLOUDWATCH_EMF_SCHEMA validation,
- metrics/metric.py : SingleMetric and the single_metric context manager,
- metrics/metrics.py : the legacy MetricManager, Metrics and log_metrics.

Python dicts are embedded as insertion-ordered association lists, numeric
values as Int, raised exceptions as an Except error channel, and the output
channel (print calls) as an explicit list of emitted documents.
-/

/-- Python dict assignment d[k] = v: replaces the value in place when the key
is present (keeping its position), otherwise appends the new pair. -/
def dictInsert {α : Type} : List (String × α) → String → α → List (String × α)
  | [], k, v => [(k, v)]
  | (k', v') :: t, k, v =>
      if k' = k then (k, v) :: t else (k', v') :: dictInsert t k v

/-- Python dict lookup d.get(k): first pair with the key, if any. -/
def dictLookup {α : Type} : List (String × α) → String → Option α
  | [], _ => none
  | (k', v') :: t, k => if k' = k then some v' else dictLookup t k

/-- Exceptions raised by the embedded code.  The Python code raises ValueError
in every case; the constructors record the raise site (raw message strings are
not modelled).  user-tagged errors stand for arbitrary exceptions raised by a
caller-supplied body inside the single_metric scope. -/
inductive PyErr : Type
  | schemaValidation
  | invalidUnit
  | tooManyDimensions
  | invalidDimensionValue
  | user (n : Nat)
  deriving DecidableEq, Repr

/-- helper/models.py MetricUnit: the enum has 52 member names, but duplicate
values make most of them aliases; these are the 15 distinct canonical members
(every per-second member aliases bytespersecond, the first member whose value
is the string Second). -/
inductive MetricUnit : Type
  | seconds | microseconds | milliseconds
  | kilobytes | megabytes | gigabytes | terabytes
  | bits | kilobits | megabits | gigabits | terabits
  | percent | count
  | bytespersecond
  deriving DecidableEq, Repr

/-- The .value of each canonical MetricUnit member (models.py). -/
def MetricUnit.value : MetricUnit → String
  | .seconds => "Seconds"
  | .microseconds => "Microseconds"
  | .milliseconds => "Milliseconds"
  | .kilobytes => "Kilobytes"
  | .megabytes => "Megabytes"
  | .gigabytes => "Gigabytes"
  | .terabytes => "Terabytes"
  | .bits => "Bits"
  | .kilobits => "Kilobits"
  | .megabits => "Megabits"
  | .gigabits => "Gigabits"
  | .terabits => "Terabits"
  | .percent => "Percent"
  | .count => "Count"
  | .bytespersecond => "Second"

/-- MetricUnit[name]: lookup by member name, aliases included (models.py).
Returns none where Python raises KeyError. -/
def unitOfMemberName (nm : String) : Option MetricUnit :=
  if nm = "seconds" ∨ nm = "Seconds" then some .seconds
  else if nm = "microseconds" ∨ nm = "Microseconds" then some .microseconds
  else if nm = "milliseconds" ∨ nm = "Milliseconds" then some .milliseconds
  else if nm = "kilobytes" ∨ nm = "Kilobytes" then some .kilobytes
  else if nm = "megabytes" ∨ nm = "Megabytes" then some .megabytes
  else if nm = "gigabytes" ∨ nm = "Gigabytes" then some .gigabytes
  else if nm = "terabytes" ∨ nm = "Terabytes" then some .terabytes
  else if nm = "bits" ∨ nm = "Bits" then some .bits
  else if nm = "kilobits" ∨ nm = "Kilobits" then some .kilobits
  else if nm = "megabits" ∨ nm = "Megabits" then some .megabits
  else if nm = "gigabits" ∨ nm = "Gigabits" then some .gigabits
  else if nm = "terabits" ∨ nm = "Terabits" then some .terabits
  else if nm = "percent" ∨ nm = "Percent" then some .percent
  else if nm = "count" ∨ nm = "Count" then some .count
  else if nm = "bytespersecond" ∨ nm = "Bytespersecond"
       ∨ nm = "kilobytespersecond" ∨ nm = "Kilobytespersecond"
       ∨ nm = "megabytespersecond" ∨ nm = "Megabytespersecond"
       ∨ nm = "gigabytespersecond" ∨ nm = "Gigabytespersecond"
       ∨ nm = "terabytespersecond" ∨ nm = "Terabytespersecond"
       ∨ nm = "bitspersecond" ∨ nm = "Bitspersecond"
       ∨ nm = "kilobitspersecond" ∨ nm = "Kilobitspersecond"
       ∨ nm = "megabitspersecond" ∨ nm = "Megabitspersecond"
       ∨ nm = "gigabitspersecond" ∨ nm = "Gigabitspersecond"
       ∨ nm = "terabitspersecond" ∨ nm = "Terabitspersecond"
       ∨ nm = "countpersecond" ∨ nm = "Countpersecond" then some .bytespersecond
  else none

/-- The 22 per-second (throughput) member names of MetricUnit. -/
def perSecondMemberNames : List String :=
  ["bytespersecond", "Bytespersecond",
   "kilobytespersecond", "Kilobytespersecond",
   "megabytespersecond", "Megabytespersecond",
   "gigabytespersecond", "Gigabytespersecond",
   "terabytespersecond", "Terabytespersecond",
   "bitspersecond", "Bitspersecond",
   "kilobitspersecond", "Kilobitspersecond",
   "megabitspersecond", "Megabitspersecond",
   "gigabitspersecond", "Gigabitspersecond",
   "terabitspersecond", "Terabitspersecond",
   "countpersecond", "Countpersecond"]

/-- The unit argument of add_metric: either an already-resolved MetricUnit or
a member-name string looked up against the enum. -/
inductive UnitArg : Type
  | unit (u : MetricUnit)
  | str (nm : String)
  deriving DecidableEq, Repr

/-- base.py add_metric unit resolution: an isinstance check, then
MetricUnit[unit], re-raising KeyError as ValueError. -/
def resolveUnit : UnitArg → Except PyErr MetricUnit
  | .unit u => .ok u
  | .str nm =>
      match unitOfMemberName nm with
      | some u => .ok u
      | none => .error .invalidUnit

/-- A stored metric entry, the dict with keys Unit and Value built by
add_metric.  Unit is optional so that entries lacking the key (as the _aws
envelope entry does in the legacy manager) are representable. -/
structure MetricEntry : Type where
  Unit : Option String
  Value : Int
  deriving DecidableEq, Repr

/-- A dimension value: Python callers pass strings or numbers. -/
inductive DimValue : Type
  | str (s : String)
  | num (n : Int)
  deriving DecidableEq, Repr

/-- Python truthiness of a dimension value (empty string and zero are falsy). -/
def DimValue.truthy : DimValue → Bool
  | .str s => decide (s ≠ "")
  | .num n => decide (n ≠ 0)

/-- One Metrics directive item of the EMF document. -/
structure EmfMetricDefn : Type where
  Name : String
  Unit : String
  deriving DecidableEq, Repr

/-- One CloudWatchMetrics directive of the EMF document. -/
structure EmfDirective : Type where
  Namespace : String
  Dimensions : List (List String)
  Metrics : List EmfMetricDefn
  deriving DecidableEq, Repr

/-- The _aws metadata object of the EMF document. -/
structure EmfAws : Type where
  Timestamp : Int
  CloudWatchMetrics : List EmfDirective
  deriving DecidableEq, Repr

/-- The document built by base.py serialize_metric_set: the flattened
name-to-value pairs plus the _aws metadata object. -/
structure EmfDoc : Type where
  values : List (String × Int)
  aws : EmfAws
  deriving DecidableEq, Repr

/-- re.search of the jsonschema pattern given by caret, a dot-star group and
a dollar against a string: succeeds exactly when the string contains no
newline other than possibly a single trailing one (dot excludes newlines, the
dollar also matches just before a trailing newline). -/
def anyStrPat (s : String) : Bool :=
  s.data.dropLast.all (fun c => c ≠ '\n')

/-- The alternatives of the allowed-unit pattern in CLOUDWATCH_EMF_SCHEMA. -/
def allowedUnits : List String :=
  ["Seconds", "Microseconds", "Milliseconds", "Bytes", "Kilobytes",
   "Megabytes", "Gigabytes", "Terabytes", "Bits", "Kilobits", "Megabits",
   "Gigabits", "Terabits", "Percent", "Count", "Bytes/Second",
   "Kilobytes/Second", "Megabytes/Second", "Gigabytes/Second",
   "Terabytes/Second", "Bits/Second", "Kilobits/Second", "Megabits/Second",
   "Gigabits/Second", "Terabits/Second", "Count/Second", "None"]

/-- re.search of the anchored allowed-unit alternation: the string is one of
the alternatives, or one of the alternatives followed by a trailing newline
(the dollar matches before a final newline). -/
def unitPatOk (s : String) : Bool :=
  allowedUnits.contains s
    || ((match s.data.getLast? with
         | some c => c = '\n'
         | none => false)
        && allowedUnits.contains (String.mk s.data.dropLast))

/-- Schema check of one Metrics directive item: Name must match the any-string
pattern; Unit, when present (always, in documents this code builds), must
match the allowed-unit pattern. -/
def mdefOk (m : EmfMetricDefn) : Bool :=
  anyStrPat m.Name && unitPatOk m.Unit

/-- Schema check of the Namespace property: a string of minLength 1 matching
the any-string pattern. -/
def nsOk (ns : String) : Bool :=
  anyStrPat ns && decide (1 ≤ ns.length)

/-- Schema check of the Dimensions property: at least one dimension set, each
of 1 to 9 names, each name matching the any-string pattern. -/
def dimsOk (dims : List (List String)) : Bool :=
  decide (1 ≤ dims.length)
    && dims.all (fun d =>
         decide (1 ≤ d.length) && decide (d.length ≤ 9) && d.all anyStrPat)

/-- jsonschema.validate against CLOUDWATCH_EMF_SCHEMA, specialised to the
documents this code builds: the _aws member is present and its Timestamp is an
integer by construction, so validation reduces to the per-directive checks.
Top-level metric values are unconstrained by the schema. -/
def emfValid (d : EmfDoc) : Bool :=
  d.aws.CloudWatchMetrics.all (fun dir =>
    nsOk dir.Namespace && dimsOk dir.Dimensions && dir.Metrics.all mdefOk)

namespace Base

/-- base.py MetricManager state: the metric dict, the dimension dict and the
optional namespace (set from POWERTOOLS_METRICS_NAMESPACE or the constructor
argument; Lean does not allow the field name used in the source). -/
structure MetricManager : Type where
  metric_set : List (String × MetricEntry)
  dimension_set : List (String × DimValue)
  metric_namespace : Option String
  deriving DecidableEq, Repr

/-- A fresh base.py MetricManager with no environment namespace. -/
def MetricManager.init : MetricManager := ⟨[], [], none⟩

/-- base.py add_namespace: overwrites the namespace (after a warning log). -/
def MetricManager.add_namespace (s : MetricManager) (name : String) :
    MetricManager :=
  { s with metric_namespace := some name }

/-- The serialization loop of base.py serialize_metric_set: walks the metric
dict in insertion order and collects, for entries whose Value is positive and
whose Unit is set, the Metrics directive item and the flattened top-level
name-to-value pair. -/
def collectMetrics :
    List (String × MetricEntry) → List EmfMetricDefn × List (String × Int)
  | [] => ([], [])
  | (nm, e) :: t =>
      let r := collectMetrics t
      match e.Unit with
      | some u => if 0 < e.Value then (⟨nm, u⟩ :: r.1, (nm, e.Value) :: r.2) else r
      | none => r

/-- The document base.py serialize_metric_set assembles before validation:
hardcoded Namespace, the dimension names as the single dimension set, the
collected Metrics directive, and the millisecond timestamp (passed in as the
explicit clock reading). -/
def buildDoc (s : MetricManager) (now : Int) : EmfDoc :=
  let dimension_keys := s.dimension_set.map Prod.fst
  let collected := collectMetrics s.metric_set
  { values := collected.2
    aws := ⟨now, [⟨"ServerlessAirline", [dimension_keys], collected.1⟩]⟩ }

/-- base.py serialize_metric_set: builds the document and validates it against
CLOUDWATCH_EMF_SCHEMA, re-raising a jsonschema ValidationError as ValueError
(modelled as the schemaValidation error). -/
def MetricManager.serialize_metric_set (s : MetricManager) (now : Int) :
    Except PyErr EmfDoc :=
  let d := buildDoc s now
  if emfValid d then .ok d else .error .schemaValidation

/-- The stateful view of base.py serialize_metric_set: the method only reads
self, so the returned state is the receiver unchanged. -/
def MetricManager.serialize_metric_set_full (s : MetricManager) (now : Int) :
    Except PyErr EmfDoc × MetricManager :=
  (s.serialize_metric_set now, s)

/-- base.py add_metric: when exactly 100 metrics are stored, first serializes
and prints the current set (errors from that serialization propagate), then
resolves the unit and stores the entry.  The emitted documents are returned
alongside the new state. -/
def MetricManager.add_metric (s : MetricManager) (name : String)
    (unit : UnitArg) (value : Int) (now : Int) :
    Except PyErr (MetricManager × List EmfDoc) :=
  match (if s.metric_set.length = 100
         then (s.serialize_metric_set now).map (fun d => [d])
         else .ok []) with
  | .error e => .error e
  | .ok ems =>
      match resolveUnit unit with
      | .error e => .error e
      | .ok u =>
          .ok ({ s with
                 metric_set :=
                   dictInsert s.metric_set name ⟨some u.value, value⟩ }, ems)

/-- base.py add_dimension: an unconditional dict store; the method body
contains no raise, so it always returns ok. -/
def MetricManager.add_dimension (s : MetricManager) (name : String)
    (value : DimValue) : Except PyErr MetricManager :=
  .ok { s with dimension_set := dictInsert s.dimension_set name value }

end Base

namespace SingleM

/-- metric.py SingleMetric.add_metric: a no-op once a metric is present,
otherwise the inherited base.py add_metric.  The state type is the base
manager (SingleMetric adds no fields). -/
def add_metric (s : Base.MetricManager) (name : String) (unit : UnitArg)
    (value : Int) (now : Int) :
    Except PyErr (Base.MetricManager × List EmfDoc) :=
  if 0 < s.metric_set.length then .ok (s, [])
  else s.add_metric name unit value now

/-- Outcome of the caller-supplied body run inside the single_metric scope:
it finishes normally or raises, in both cases leaving the accumulator in some
state.  Bodies interact with the channel only through the session object,
whose operations never print here, so the body itself emits nothing. -/
inductive BodyOutcome : Type
  | normal (s : Base.MetricManager)
  | raised (e : PyErr) (s : Base.MetricManager)

/-- metric.py single_metric: seeds a fresh SingleMetric with one metric,
yields it to the body, serializes after a normal body, and in the finally
block always prints json.dumps of the serialized set, which is still None when
the body or the seeding raised (printed as the JSON null literal).  Returns
the propagated outcome and the full output channel; each list element is one
printed line, none standing for the null line. -/
def single_metric (name : String) (unit : UnitArg) (value : Int)
    (body : Base.MetricManager → BodyOutcome) (now : Int) :
    Except PyErr Unit × List (Option EmfDoc) :=
  match add_metric Base.MetricManager.init name unit value now with
  | .error e => (.error e, [none])
  | .ok (m1, ems) =>
      match body m1 with
      | .raised e _ => (.error e, ems.map some ++ [none])
      | .normal m2 =>
          match m2.serialize_metric_set now with
          | .error e => (.error e, ems.map some ++ [none])
          | .ok d => (.ok (), ems.map some ++ [some d])

end SingleM

namespace Legacy

/-- A value stored in the legacy (metrics.py) metric dict: either a metric
entry or the _aws envelope that serialize_metric_set writes back into the
same dict. -/
inductive MVal : Type
  | metricEntry (e : MetricEntry)
  | awsEnv (a : EmfAws)
  deriving DecidableEq, Repr

/-- metric.get of the Value key with default 0 (the envelope lacks it). -/
def MVal.getValue : MVal → Int
  | .metricEntry e => e.Value
  | .awsEnv _ => 0

/-- metric.get of the Unit key (none when absent). -/
def MVal.getUnit : MVal → Option String
  | .metricEntry e => e.Unit
  | .awsEnv _ => none

/-- metrics.py MetricManager state: metric and dimension dicts only (this
variant has no namespace field). -/
structure MetricManager : Type where
  metric_set : List (String × MVal)
  dimension_set : List (String × DimValue)
  deriving DecidableEq, Repr

/-- The serialization loop of metrics.py serialize_metric_set: collects the
Metrics directive items for entries with positive Value and a set Unit (the
flattened local dict it also builds is discarded by the method). -/
def collect : List (String × MVal) → List EmfMetricDefn
  | [] => []
  | (nm, mv) :: t =>
      match mv.getUnit with
      | some u => if 0 < mv.getValue then ⟨nm, u⟩ :: collect t else collect t
      | none => collect t

/-- The _aws envelope metrics.py serialize_metric_set assembles. -/
def awsOf (s : MetricManager) (now : Int) : EmfAws :=
  ⟨now, [⟨"ServerlessAirline", [s.dimension_set.map Prod.fst], collect s.metric_set⟩]⟩

/-- metrics.py serialize_metric_set: builds the directive, stores the _aws
envelope into the metric dict itself, and returns that same dict as the
document.  No validation is performed and nothing is raised.  Returns the
document together with the mutated state. -/
def MetricManager.serialize_metric_set (s : MetricManager) (now : Int) :
    List (String × MVal) × MetricManager :=
  let doc := dictInsert s.metric_set "_aws" (MVal.awsEnv (awsOf s now))
  (doc, { s with metric_set := doc })

/-- metrics.py add_dimension: raises when more than 9 dimensions are already
stored, then raises on a falsy value, otherwise stores the entry. -/
def MetricManager.add_dimension (s : MetricManager) (name : String)
    (value : DimValue) : Except PyErr MetricManager :=
  if 9 < s.dimension_set.length then .error .tooManyDimensions
  else if ¬ value.truthy then .error .invalidDimensionValue
  else .ok { s with dimension_set := dictInsert s.dimension_set name value }

/-- metrics.py Metrics.log_metrics: the decorator returns a wrapper that, on
invocation, serializes the shared accumulator and prints the result, never
calling the wrapped function.  The wrapped work is modelled as a state
transformer with its own would-be output; invocation returns the new shared
state and the emitted documents. -/
def log_metrics
    (fn : MetricManager → MetricManager × List (List (String × MVal)))
    (s : MetricManager) (now : Int) :
    MetricManager × List (List (String × MVal)) :=
  let r := s.serialize_metric_set now
  (r.2, [r.1])

end Legacy

/-- Driver iterating base.py add_metric over a list of name, unit, value
triples, threading the state and concatenating the emitted documents, and
stopping at the first raised error, as straight-line Python code would. -/
def addMany (s : Base.MetricManager) (now : Int) :
    List (String × MetricUnit × Int) →
    Except PyErr (Base.MetricManager × List EmfDoc)
  | [] => .ok (s, [])
  | (nm, u, v) :: t =>
      match s.add_metric nm (.unit u) v now with
      | .error e => .error e
      | .ok (s1, ems) =>
          match addMany s1 now t with
          | .error e => .error e
          | .ok (s2, ems2) => .ok (s2, ems ++ ems2)

/-- The metric entry that storing one driver call produces. -/
def entryOf (c : String × MetricUnit × Int) : String × MetricEntry :=
  (c.1, ⟨some c.2.1.value, c.2.2⟩)

deriving instance DecidableEq for Except

theorem dictLookup_dictInsert_self {α : Type} (l : List (String × α))
    (k : String) (v : α) : dictLookup (dictInsert l k v) k = some v := by
  induction l with
  | nil => simp [dictInsert, dictLookup]
  | cons p t ih =>
      obtain ⟨k', v'⟩ := p
      by_cases h : k' = k <;> simp [dictInsert, dictLookup, h, ih]

theorem dictInsert_of_not_mem {α : Type} (l : List (String × α)) (k : String)
    (v : α) (h : k ∉ l.map Prod.fst) : dictInsert l k v = l ++ [(k, v)] := by
  induction l with
  | nil => rfl
  | cons p t ih =>
      obtain ⟨k', v'⟩ := p
      simp only [List.map_cons, List.mem_cons] at h
      push_neg at h
      simp [dictInsert, Ne.symm h.1, ih h.2]

/-- The inclusion predicate of the serialization loop read off the spec side:
a stored metric is listed when its value is strictly positive and its unit is
set. -/
def listedPred (q : String × MetricEntry) : Bool :=
  decide (0 < q.2.Value) && q.2.Unit.isSome

theorem collectMetrics_fst_eq_filter (l : List (String × MetricEntry)) :
    (Base.collectMetrics l).1
      = (l.filter listedPred).map (fun q => ⟨q.1, q.2.Unit.getD ""⟩) := by
  induction l with
  | nil => rfl
  | cons p t ih =>
      obtain ⟨nm, e⟩ := p
      cases hu : e.Unit with
      | none => simp [Base.collectMetrics, hu, listedPred, ih]
      | some u =>
          by_cases hv : 0 < e.Value <;>
            simp [Base.collectMetrics, hu, listedPred, hv, ih]

theorem mem_collectMetrics_of_mem (l : List (String × MetricEntry))
    (nm u : String) (v : Int) (hmem : (nm, MetricEntry.mk (some u) v) ∈ l)
    (hv : 0 < v) : (⟨nm, u⟩ : EmfMetricDefn) ∈ (Base.collectMetrics l).1 := by
  induction l with
  | nil => simp at hmem
  | cons p t ih =>
      obtain ⟨nm', e'⟩ := p
      rcases List.mem_cons.mp hmem with heq | htail
      · injection heq with ha hb
        subst ha hb
        simp [Base.collectMetrics, hv]
      · have hrec := ih htail
        cases hu : e'.Unit with
        | none => simpa [Base.collectMetrics, hu] using hrec
        | some u' =>
            by_cases hval : 0 < e'.Value <;>
              simp [Base.collectMetrics, hu, hval, hrec]

/-- C5: the serialized document's directive namespace is the constant string
ServerlessAirline for every accumulator state; add_namespace calls and the
stored namespace field (set from the constructor argument or configuration)
are never read during serialization. -/
theorem C5_namespace_hardcoded (s : Base.MetricManager) (now : Int)
    (a : String) (ns2 : Option String) :
    (Base.buildDoc s now).aws.CloudWatchMetrics.map EmfDirective.Namespace
        = ["ServerlessAirline"]
    ∧ (s.add_namespace a).serialize_metric_set now = s.serialize_metric_set now
    ∧ Base.MetricManager.serialize_metric_set
        { s with metric_namespace := ns2 } now = s.serialize_metric_set now :=
  ⟨rfl, rfl, rfl⟩

/-- C8: invoking a function wrapped by log_metrics serializes and flushes the
current shared accumulator state exactly once and is independent of the
wrapped work, which is never invoked. -/
theorem C8_log_metrics_flushes_without_invoking
    (fn g : Legacy.MetricManager →
      Legacy.MetricManager × List (List (String × Legacy.MVal)))
    (s : Legacy.MetricManager) (now : Int) :
    Legacy.log_metrics fn s now = Legacy.log_metrics g s now
    ∧ (Legacy.log_metrics fn s now).2 = [(s.serialize_metric_set now).1]
    ∧ (Legacy.log_metrics fn s now).1 = (s.serialize_metric_set now).2 :=
  ⟨rfl, rfl, rfl⟩

/-- Legacy accumulator holding one ordinary metric, used to exhibit the
serializer's mutation of the stored metric set. -/
def c7State : Legacy.MetricManager :=
  ⟨[("m", .metricEntry ⟨some "Count", 1⟩)], [("d", .str "x")]⟩

/-- C7 counterexample: the metrics.py serialize_metric_set does mutate the
accumulator, storing the _aws envelope into the stored metric set. -/
theorem C7_counterexample :
    (Legacy.MetricManager.serialize_metric_set c7State 0).2.metric_set
      ≠ c7State.metric_set := by decide

/-- C7 amended: the base.py serialize_metric_set leaves the accumulator
unchanged, while the legacy metrics.py serializer keeps the dimension set but
stores the _aws envelope into the accumulator's metric set. -/
theorem C7_amended (s : Base.MetricManager) (s2 : Legacy.MetricManager)
    (now : Int) :
    (s.serialize_metric_set_full now).2 = s
    ∧ (s2.serialize_metric_set now).2.dimension_set = s2.dimension_set
    ∧ (s2.serialize_metric_set now).2.metric_set
        = dictInsert s2.metric_set "_aws"
            (Legacy.MVal.awsEnv (Legacy.awsOf s2 now)) :=
  ⟨rfl, rfl, rfl⟩

/-- Accumulator with zero metrics, one dimension and a namespace set, the
configuration the spec and the repository's own test expect to be rejected. -/
def c4State : Base.MetricManager :=
  ⟨[], [("test_dimension", .str "test")], some "test_namespace"⟩

/-- C4: evaluating the code at the failing input: with zero metrics, one
dimension and a namespace set, serialize_metric_set returns a document with an
empty Metrics directive instead of raising, because CLOUDWATCH_EMF_SCHEMA puts
no minItems constraint on the Metrics array.  The repository's own test
test_schema_no_metrics expects SchemaValidationError here. -/
theorem C4_zero_metrics_accepted :
    Base.MetricManager.serialize_metric_set c4State 0
        = .ok (Base.buildDoc c4State 0)
    ∧ c4State.metric_set = []
    ∧ (Base.buildDoc c4State 0).aws.CloudWatchMetrics.map EmfDirective.Metrics
        = [[]] := by decide

/-- Base accumulator holding one metric with a negative value. -/
def c6State : Base.MetricManager :=
  ⟨[("m", ⟨some "Count", -1⟩)], [("d", .str "x")], none⟩

/-- C6 counterexample: a stored metric with the non-zero value minus one and a
set unit is excluded from the Metrics directive, so the directive does not
list every non-zero-valued metric with a set unit. -/
theorem C6_counterexample :
    (Base.buildDoc c6State 0).aws.CloudWatchMetrics.map EmfDirective.Metrics
        = [[]]
    ∧ c6State.metric_set = [("m", ⟨some "Count", -1⟩)] := by decide

/-- C6 amended: for every accumulator state, the Metrics directive lists
exactly those stored metrics whose accumulated value is strictly positive and
whose unit is set. -/
theorem C6_amended (s : Base.MetricManager) (now : Int) :
    (Base.buildDoc s now).aws.CloudWatchMetrics.map EmfDirective.Metrics
      = [(s.metric_set.filter listedPred).map
           (fun q => ⟨q.1, q.2.Unit.getD ""⟩)] := by
  simp [Base.buildDoc, collectMetrics_fst_eq_filter]

/-- Legacy accumulator with nine distinct dimension names. -/
def c3State : Legacy.MetricManager :=
  ⟨[], (List.range 9).map
        (fun i => (String.singleton (Char.ofNat (97 + i)), DimValue.str "v"))⟩

/-- C3 counterexample: on an accumulator holding nine distinct dimension
names, adding a tenth distinct name with a truthy value succeeds and stores
the tenth entry instead of raising the too-many-dimensions error, because the
guard only fires when more than nine entries are already stored. -/
theorem C3_counterexample :
    Legacy.MetricManager.add_dimension c3State "j" (.str "v")
      = .ok ⟨[], (List.range 10).map
          (fun i => (String.singleton (Char.ofNat (97 + i)), DimValue.str "v"))⟩
    ∧ c3State.dimension_set.length = 9 := by decide

/-- C3 amended: with a truthy value, add_dimension succeeds while at most ten
distinct names result (that is, when at most nine are already stored), and
raises the too-many-dimensions error exactly when more than nine entries are
already stored, the eleventh distinct name being the first to fail. -/
theorem C3_amended (s : Legacy.MetricManager) (name : String)
    (value : DimValue) (ht : value.truthy = true) :
    (s.dimension_set.length ≤ 9 →
      s.add_dimension name value
        = .ok { s with dimension_set := dictInsert s.dimension_set name value })
    ∧ (9 < s.dimension_set.length →
      s.add_dimension name value = .error .tooManyDimensions) := by
  constructor <;> intro h
  · simp [Legacy.MetricManager.add_dimension, Nat.not_lt.mpr h, ht]
  · simp [Legacy.MetricManager.add_dimension, h]

/-- Witness for the amended C3 at a concrete input. -/
theorem C3_amended_witness :
    Legacy.MetricManager.add_dimension ⟨[], []⟩ "d" (.str "v")
      = .ok { Legacy.MetricManager.mk [] [] with
              dimension_set := dictInsert [] "d" (.str "v") } :=
  (C3_amended ⟨[], []⟩ "d" (.str "v") (by decide)).1 (by decide)

/-- Base accumulator with one falsy-valued dimension and one valid metric. -/
def c10State : Base.MetricManager :=
  ⟨[("m", ⟨some "Count", 1⟩)], [("d", .num 0)], none⟩

/-- C10 counterexample: the base add_dimension stores a falsy (zero) value
without raising, and the subsequent serialization also succeeds, so the
dimension-value violation never surfaces through schema validation, contrary
to the claim's final clause: serialization reads only dimension names. -/
theorem C10_counterexample :
    Base.MetricManager.add_dimension ⟨[("m", ⟨some "Count", 1⟩)], [], none⟩
        "d" (.num 0) = .ok c10State
    ∧ (DimValue.num 0).truthy = false
    ∧ Base.MetricManager.serialize_metric_set c10State 0
        = .ok (Base.buildDoc c10State 0) := by decide

/-- C10 amended: on the base MetricManager used by the single-metric session,
add_dimension never raises and stores every entry, for every name and value;
dimension-count violations surface only at serialization time through schema
validation, while dimension-value violations never surface there, because
serialization depends on the dimension names alone. -/
theorem C10_add_dimension_total (s : Base.MetricManager) (name : String)
    (value : DimValue) (now : Int) (dims2 : List (String × DimValue)) :
    s.add_dimension name value
      = .ok { s with dimension_set := dictInsert s.dimension_set name value }
    ∧ dictLookup (dictInsert s.dimension_set name value) name = some value
    ∧ (9 < s.dimension_set.length →
        s.serialize_metric_set now = .error .schemaValidation)
    ∧ (dims2.map Prod.fst = s.dimension_set.map Prod.fst →
        Base.MetricManager.serialize_metric_set
          { s with dimension_set := dims2 } now = s.serialize_metric_set now) := by
  refine ⟨rfl, dictLookup_dictInsert_self .., ?_, ?_⟩
  · intro h
    have hlen : ¬ (s.dimension_set.map Prod.fst).length ≤ 9 := by
      simpa using Nat.not_le.mpr h
    have hval : emfValid (Base.buildDoc s now) = false := by
      simp only [emfValid, Base.buildDoc, dimsOk]
      simp
      exact fun _ _ hle _ => absurd hle (Nat.not_le.mpr h)
    simp [Base.MetricManager.serialize_metric_set, hval]
  · intro h
    simp [Base.MetricManager.serialize_metric_set, Base.buildDoc, h]

/-- Base accumulator with ten distinct dimension names. -/
def c10Base : Base.MetricManager :=
  ⟨[], (List.range 10).map
        (fun i => (String.singleton (Char.ofNat (97 + i)), DimValue.str "v")),
   none⟩

/-- Witness for C10 at a concrete input with ten dimensions stored. -/
theorem C10_add_dimension_total_witness :
    Base.MetricManager.add_dimension c10Base "k" (.str "")
      = .ok { c10Base with
              dimension_set := dictInsert c10Base.dimension_set "k" (.str "") }
    ∧ dictLookup (dictInsert c10Base.dimension_set "k" (.str "")) "k"
        = some (.str "")
    ∧ Base.MetricManager.serialize_metric_set c10Base 0
        = .error .schemaValidation :=
  have h := C10_add_dimension_total c10Base "k" (.str "") 0 []
  ⟨h.1, h.2.1, h.2.2.1 (by decide)⟩

/-- C1: for every body run inside the single_metric scope, exactly one line is
emitted on the output channel on exit, and when the body raises after the one
seeded metric was added, the original exception propagates to the caller. -/
theorem C1_single_metric_flushes_once (name : String) (unit : UnitArg)
    (value : Int) (body : Base.MetricManager → SingleM.BodyOutcome)
    (now : Int) :
    (SingleM.single_metric name unit value body now).2.length = 1
    ∧ ∀ m1 ems e m2,
        SingleM.add_metric Base.MetricManager.init name unit value now
          = .ok (m1, ems) →
        body m1 = .raised e m2 →
        (SingleM.single_metric name unit value body now).1 = .error e := by
  have hseed : ∀ m1 ems,
      SingleM.add_metric Base.MetricManager.init name unit value now
        = .ok (m1, ems) → ems = [] := by
    intro m1 ems hr
    simp only [SingleM.add_metric, Base.MetricManager.init,
      Base.MetricManager.add_metric] at hr
    simp at hr
    cases hu : resolveUnit unit with
    | error e => simp [hu] at hr
    | ok u => simp [hu] at hr; exact hr.2
  constructor
  · unfold SingleM.single_metric
    cases ha : SingleM.add_metric Base.MetricManager.init name unit value now with
    | error e => simp
    | ok r =>
        obtain ⟨m1, ems⟩ := r
        have hems : ems = [] := hseed m1 ems ha
        subst hems
        cases hb : body m1 with
        | raised e m2 => simp [hb]
        | normal m2 =>
            cases hs : m2.serialize_metric_set now with
            | error e => simp [hb, hs]
            | ok d => simp [hb, hs]
  · intro m1 ems e m2 ha hb
    unfold SingleM.single_metric
    rw [ha]
    simp [hb]

/-- Witness for C1: a concrete session whose body raises after the single
seeded metric was stored; the channel carries exactly one line and the body's
own exception is the propagated outcome. -/
theorem C1_single_metric_flushes_once_witness :
    (SingleM.single_metric "ColdStart" (.unit .count) 1
        (fun s => .raised (.user 7) s) 0).2.length = 1
    ∧ (SingleM.single_metric "ColdStart" (.unit .count) 1
        (fun s => .raised (.user 7) s) 0).1 = .error (.user 7) := by
  refine ⟨(C1_single_metric_flushes_once "ColdStart" (.unit .count) 1
      (fun s => .raised (.user 7) s) 0).1, ?_⟩
  exact (C1_single_metric_flushes_once "ColdStart" (.unit .count) 1
      (fun s => .raised (.user 7) s) 0).2
    ⟨[("ColdStart", ⟨some "Count", 1⟩)], [], none⟩ [] (.user 7)
    ⟨[("ColdStart", ⟨some "Count", 1⟩)], [], none⟩ (by decide) rfl

/-- C9: every per-second member name of MetricUnit resolves to the canonical
unit string Second, that string fails the schema's allowed-unit pattern,
add_metric (below the flush threshold) stores exactly that string, and any
accumulator holding such an entry with a positive value fails serialization
with the schema-validation error. -/
theorem C9_throughput_units_fail_schema (nm : String)
    (h : nm ∈ perSecondMemberNames) (s : Base.MetricManager)
    (mname : String) (v : Int) (now : Int)
    (hmem : (mname, MetricEntry.mk (some "Second") v) ∈ s.metric_set)
    (hv : 0 < v) :
    (resolveUnit (.str nm)).map MetricUnit.value = .ok "Second"
    ∧ unitPatOk "Second" = false
    ∧ (s.metric_set.length ≠ 100 →
        s.add_metric mname (.str nm) v now
          = .ok ({ s with metric_set :=
                     dictInsert s.metric_set mname ⟨some "Second", v⟩ }, []))
    ∧ s.serialize_metric_set now = .error .schemaValidation := by
  have hres : resolveUnit (.str nm) = .ok .bytespersecond := by
    have hall : perSecondMemberNames.all
        (fun x => unitOfMemberName x == some .bytespersecond) = true := by decide
    have := List.all_eq_true.mp hall nm h
    simp only [beq_iff_eq] at this
    simp [resolveUnit, this]
  refine ⟨by rw [hres]; rfl, by decide, ?_, ?_⟩
  · intro hlen
    simp only [Base.MetricManager.add_metric, if_neg hlen, hres]
    rfl
  · have hmm : (⟨mname, "Second"⟩ : EmfMetricDefn)
        ∈ (Base.collectMetrics s.metric_set).1 :=
      mem_collectMetrics_of_mem s.metric_set mname "Second" v hmem hv
    have hall : ((Base.collectMetrics s.metric_set).1.all mdefOk) = false := by
      apply (Bool.eq_false_iff).mpr
      intro hcontra
      have := List.all_eq_true.mp hcontra _ hmm
      simp [mdefOk, unitPatOk, allowedUnits] at this
    have hval : emfValid (Base.buildDoc s now) = false := by
      simp [emfValid, Base.buildDoc, hall]
    simp [Base.MetricManager.serialize_metric_set, hval]

/-- Base accumulator holding one positive throughput metric. -/
def c9State : Base.MetricManager :=
  ⟨[("tput", ⟨some "Second", 1⟩)], [("d", .str "x")], none⟩

/-- Witness for C9 at the member name Countpersecond on a concrete state. -/
theorem C9_throughput_units_fail_schema_witness :
    (resolveUnit (.str "Countpersecond")).map MetricUnit.value = .ok "Second"
    ∧ unitPatOk "Second" = false
    ∧ Base.MetricManager.serialize_metric_set c9State 0
        = .error .schemaValidation :=
  have h := C9_throughput_units_fail_schema "Countpersecond" (by decide)
    c9State "tput" 1 0 (by decide) (by decide)
  ⟨h.1, h.2.1, h.2.2.2⟩

theorem addMany_noflush (now : Int) (cs : List (String × MetricUnit × Int)) :
    ∀ (s : Base.MetricManager),
      s.metric_set.length + cs.length ≤ 100 →
      (∀ c ∈ cs, c.1 ∉ s.metric_set.map Prod.fst) →
      (cs.map (fun c => c.1)).Nodup →
      addMany s now cs
        = .ok ({ s with metric_set := s.metric_set ++ cs.map entryOf }, []) := by
  induction cs with
  | nil => intro s _ _ _; simp [addMany]
  | cons c t ih =>
      obtain ⟨nm, u, v⟩ := c
      intro s hlen hfresh hnd
      have hne : s.metric_set.length ≠ 100 := by
        simp only [List.length_cons] at hlen; omega
      have hstep : s.add_metric nm (.unit u) v now
          = .ok ({ s with metric_set
                     := s.metric_set ++ [(nm, ⟨some u.value, v⟩)] }, []) := by
        simp only [Base.MetricManager.add_metric, if_neg hne, resolveUnit]
        rw [dictInsert_of_not_mem _ _ _ (hfresh (nm, u, v) (by simp))]
      have hfresh2 : ∀ c ∈ t,
          c.1 ∉ (s.metric_set ++ [(nm, (⟨some u.value, v⟩ : MetricEntry))]).map
                  Prod.fst := by
        intro c hc
        simp only [List.map_append, List.mem_append]
        push_neg
        refine ⟨hfresh c (by simp [hc]), ?_⟩
        simp only [List.map_cons, List.nodup_cons] at hnd
        have : c.1 ∈ t.map (fun c => c.1) := List.mem_map_of_mem _ hc
        simp only [List.map_cons]
        intro hmem
        simp at hmem
        exact hnd.1 (hmem ▸ this)
      have hrec := ih { s with metric_set
                         := s.metric_set ++ [(nm, ⟨some u.value, v⟩)] }
        (by simp only [List.length_cons] at hlen; simp; omega)
        hfresh2
        (by simp only [List.map_cons, List.nodup_cons] at hnd; exact hnd.2)
      simp only [addMany, hstep, hrec]
      simp [entryOf]

theorem collect_all_mdefOk (l : List (String × MetricEntry))
    (hm : ∀ q ∈ l, anyStrPat q.1 = true
          ∧ ∀ u, q.2.Unit = some u → unitPatOk u = true) :
    (Base.collectMetrics l).1.all mdefOk = true := by
  induction l with
  | nil => rfl
  | cons p t ih =>
      obtain ⟨nm, e⟩ := p
      have hhead := hm (nm, e) (by simp)
      have htail := ih (fun q hq => hm q (by simp [hq]))
      cases hu : e.Unit with
      | none => simpa [Base.collectMetrics, hu] using htail
      | some u =>
          by_cases hv : 0 < e.Value
          · simp [Base.collectMetrics, hu, hv, mdefOk, htail,
              hhead.1, hhead.2 u hu]
          · simpa [Base.collectMetrics, hu, hv] using htail

theorem emfValid_buildDoc (s : Base.MetricManager) (now : Int)
    (hd1 : s.dimension_set ≠ []) (hd9 : s.dimension_set.length ≤ 9)
    (hdp : ∀ p ∈ s.dimension_set, anyStrPat p.1 = true)
    (hm : ∀ q ∈ s.metric_set, anyStrPat q.1 = true
          ∧ ∀ u, q.2.Unit = some u → unitPatOk u = true) :
    emfValid (Base.buildDoc s now) = true := by
  have hcoll := collect_all_mdefOk s.metric_set hm
  have hpos : 1 ≤ s.dimension_set.length :=
    Nat.one_le_iff_ne_zero.mpr (fun h => hd1 (List.length_eq_zero.mp h))
  simp only [emfValid, Base.buildDoc, dimsOk, nsOk]
  simp [hcoll, hpos, hd9]
  refine ⟨by decide, ?_⟩
  intro a b hab
  exact hdp (a, b) hab

theorem addMany_append (now : Int) (a b : List (String × MetricUnit × Int)) :
    ∀ s, addMany s now (a ++ b)
      = match addMany s now a with
        | .error e => .error e
        | .ok (s1, ems) =>
            match addMany s1 now b with
            | .error e => .error e
            | .ok (s2, ems2) => .ok (s2, ems ++ ems2) := by
  induction a with
  | nil =>
      intro s
      simp only [List.nil_append, addMany]
      cases hb : addMany s now b with
      | error e => simp [hb]
      | ok r => obtain ⟨s2, ems2⟩ := r; simp [hb]
  | cons c t ih =>
      obtain ⟨nm, u, v⟩ := c
      intro s
      simp only [List.cons_append, List.append_eq, addMany]
      cases ha : Base.MetricManager.add_metric s nm (.unit u) v now with
      | error e => rfl
      | ok r =>
          obtain ⟨s1, ems⟩ := r
          simp only [ih]
          cases hb : addMany s1 now t with
          | error e => simp [hb]
          | ok r2 =>
              obtain ⟨s2, ems2⟩ := r2
              cases hc : addMany s2 now b with
              | error e => simp [hb, hc]
              | ok r3 =>
                  obtain ⟨s3, ems3⟩ := r3
                  simp [hb, hc, List.append_assoc]

theorem addMany_flush_step (s : Base.MetricManager)
    (c : String × MetricUnit × Int) (now : Int)
    (hlen : s.metric_set.length = 100)
    (hvalid : emfValid (Base.buildDoc s now) = true)
    (hfresh : c.1 ∉ s.metric_set.map Prod.fst) :
    addMany s now [c]
      = .ok ({ s with metric_set := s.metric_set ++ [entryOf c] },
             [Base.buildDoc s now]) := by
  obtain ⟨nm, u, v⟩ := c
  have hser : s.serialize_metric_set now = .ok (Base.buildDoc s now) := by
    simp [Base.MetricManager.serialize_metric_set, hvalid]
  simp only [addMany, Base.MetricManager.add_metric, if_pos hlen, hser,
    Except.map, resolveUnit]
  rw [dictInsert_of_not_mem _ _ _ hfresh]
  rfl

/-- C2 amended: starting from a fresh base accumulator that holds one to nine
dimensions with pattern-valid names, 101 add_metric calls with distinct
pattern-valid names, positive values and schema-allowed canonical units
produce exactly one automatic serialization-and-emission, at the 101st call:
the emitted document serializes the first hundred metrics (so it is taken
before the new entry is stored), and the final metric set contains all 101
entries, the 101st included.  On a fresh accumulator with no dimensions (the
claim as stated) the 101st call instead raises the schema-validation error,
see the counterexample. -/
theorem C2_overflow_flush_at_101st (first : List (String × MetricUnit × Int))
    (lastc : String × MetricUnit × Int) (dims : List (String × DimValue))
    (now : Int)
    (hlen : first.length = 100)
    (hnd : ((first ++ [lastc]).map (fun c => c.1)).Nodup)
    (hd1 : dims ≠ []) (hd9 : dims.length ≤ 9)
    (hdp : ∀ p ∈ dims, anyStrPat p.1 = true)
    (hcs : ∀ c ∈ first ++ [lastc],
      0 < c.2.2 ∧ anyStrPat c.1 = true ∧ unitPatOk c.2.1.value = true) :
    addMany ⟨[], dims, none⟩ now (first ++ [lastc])
      = .ok (⟨(first ++ [lastc]).map entryOf, dims, none⟩,
             [Base.buildDoc ⟨first.map entryOf, dims, none⟩ now])
    ∧ entryOf lastc ∈ (first ++ [lastc]).map entryOf := by
  have hnd' : (first.map (fun c => c.1) ++ [lastc.1]).Nodup := by
    simpa using hnd
  have hndf : (first.map (fun c => c.1)).Nodup := hnd'.of_append_left
  have hnotin : lastc.1 ∉ first.map (fun c => c.1) := by
    rcases List.nodup_append.mp hnd' with ⟨_, _, hdisj⟩
    intro hmem
    exact hdisj hmem (by simp)
  have h1 := addMany_noflush now first ⟨[], dims, none⟩
    (by simp [hlen]) (by simp) hndf
  have hs1 : ({ Base.MetricManager.mk [] dims none with
      metric_set := [] ++ first.map entryOf })
      = ⟨first.map entryOf, dims, none⟩ := by simp
  rw [hs1] at h1
  have hlen1 : (Base.MetricManager.mk (first.map entryOf) dims none).metric_set.length
      = 100 := by simp [hlen]
  have hmOK : ∀ q ∈ first.map entryOf, anyStrPat q.1 = true
      ∧ ∀ u, q.2.Unit = some u → unitPatOk u = true := by
    intro q hq
    rcases List.mem_map.mp hq with ⟨c, hc, rfl⟩
    have := hcs c (by simp [hc])
    refine ⟨this.2.1, ?_⟩
    intro u hu
    simp only [entryOf] at hu
    injection hu with hu
    exact hu ▸ this.2.2
  have hvalid := emfValid_buildDoc ⟨first.map entryOf, dims, none⟩ now
    hd1 hd9 hdp hmOK
  have hfresh1 : lastc.1 ∉ (first.map entryOf).map Prod.fst := by
    simpa [entryOf, Function.comp] using hnotin
  have h2 := addMany_flush_step ⟨first.map entryOf, dims, none⟩ lastc now
    hlen1 hvalid hfresh1
  constructor
  · rw [addMany_append now first [lastc] ⟨[], dims, none⟩, h1]
    simp only [h2]
    simp [List.map_append]
  · simp

/-- 101 add_metric calls with distinct single-character names, the Count unit
and value one. -/
def c2Calls : List (String × MetricUnit × Int) :=
  (List.range 101).map
    (fun i => (String.singleton (Char.ofNat (65 + i)), MetricUnit.count, 1))

set_option maxRecDepth 8000 in
/-- C2 counterexample: on a fresh accumulator (no dimensions), 101 add_metric
calls with distinct names, positive values and valid units do not produce one
automatic emission at the 101st call; instead the 101st call's automatic
flush fails schema validation (the dimension set serializes as one empty
dimension set) and the ValueError propagates, so no emission happens and the
101st metric is not stored. -/
theorem C2_counterexample :
    addMany Base.MetricManager.init 0 c2Calls = .error .schemaValidation
    ∧ c2Calls.length = 101
    ∧ (c2Calls.map (fun c => c.1)).Nodup
    ∧ ∀ c ∈ c2Calls, 0 < c.2.2 := by decide

/-- The first hundred driver calls of the C2 witness. -/
def c2First : List (String × MetricUnit × Int) :=
  (List.range 100).map
    (fun i => (String.singleton (Char.ofNat (65 + i)), MetricUnit.count, 1))

/-- The 101st driver call of the C2 witness. -/
def c2Last : String × MetricUnit × Int := ("final", MetricUnit.count, 1)

set_option maxRecDepth 8000 in
/-- Witness for the amended C2 at a concrete input with one dimension set. -/
theorem C2_overflow_flush_at_101st_witness :
    addMany ⟨[], [("d", DimValue.str "x")], none⟩ 0 (c2First ++ [c2Last])
      = .ok (⟨(c2First ++ [c2Last]).map entryOf,
              [("d", DimValue.str "x")], none⟩,
             [Base.buildDoc ⟨c2First.map entryOf,
                 [("d", DimValue.str "x")], none⟩ 0])
    ∧ entryOf c2Last ∈ (c2First ++ [c2Last]).map entryOf :=
  C2_overflow_flush_at_101st c2First c2Last [("d", DimValue.str "x")] 0
    (by decide) (by decide) (by decide) (by decide) (by decide) (by decide)
